import Mathlib

/-!
Verification of the order matching and settlement core of the
mercadobitcoin-challenge repository.

Decimal values (`shopspring/decimal`, stored as `DECIMAL(20,8)`) are modelled
as exact rationals (`ℚ`): the library's addition, subtraction, multiplication
and comparisons are exact decimal arithmetic, and its `String()` method prints
a canonical representation (trailing zeros trimmed), so two decimals are equal
as rationals exactly when their canonical strings coincide. UUIDs and
timestamps are modelled as `Nat`. Order types and statuses are kept as the Go
`string` values.
-/

namespace MBC

/-- Models Go `strings.Split(s, "_")` on the character list: the string is
split around each occurrence of the separator character; a string with no
separator yields a single-element list. -/
def splitUS : List Char → List (List Char)
  | [] => [[]]
  | c :: rest =>
    let r := splitUS rest
    if c = '_' then [] :: r
    else
      match r with
      | [] => [[c]]
      | h :: t => (c :: h) :: t

/-- Source: `strings.Split(s, "_")` lifted to `String`. -/
def stringsSplitUS (s : String) : List String :=
  (splitUS s.data).map (fun l => String.mk l)

/-- From `entity` (part_000): order type constants. -/
def OrderTypeBuy : String := "BUY"

def OrderTypeSell : String := "SELL"

/-- From `entity` (part_000): order status constants. -/
def OrderStatusOpen : String := "OPEN"

def OrderStatusFilled : String := "FILLED"

def OrderStatusPartiallyFilled : String := "PARTIALLY_FILLED"

def OrderStatusCancelled : String := "CANCELLED"

/-- Source: `MaxQuantity = 1000` from `entity` (part_000). -/
def MaxQuantity : ℚ := 1000

/-- Source: `MaxPrice = 100000000` from `entity` (part_000). -/
def MaxPrice : ℚ := 100000000

/-- The distinct validation error values of `entity` (part_000):
`ErrInvalidPrice`, `ErrInvalidQuantity`, `ErrInvalidOrderType`,
`ErrInvalidPairFormat`, `ErrMaxQuantity`, `ErrMaxPrice`. -/
inductive OrderErr where
  | invalidPrice
  | invalidQuantity
  | invalidOrderType
  | invalidPairFormat
  | maxQuantity
  | maxPrice
deriving DecidableEq

/-- Source: `entity.Order` (part_000): `Base` contributes `ID` and `CreatedAt`. -/
structure Order where
  id : Nat
  accountID : Nat
  instrumentPair : String
  orderType : String
  price : ℚ
  quantity : ℚ
  remainingQuantity : ℚ
  status : String
  createdAt : Nat

/-- Source: `entity.IsValidInstrumentPair` (part_000, lines 84-87). -/
def IsValidInstrumentPair (pair : String) : Bool :=
  let assets := stringsSplitUS pair
  decide (assets.length = 2) && decide (assets[0]! ≠ "") && decide (assets[1]! ≠ "")

/-- Source: `(*Order).Validate` (part_000, lines 56-82): the if-chain in source order. -/
def Order.Validate (o : Order) : Option OrderErr :=
  if o.price ≤ 0 then some .invalidPrice
  else if o.quantity ≤ 0 then some .invalidQuantity
  else if MaxQuantity < o.quantity then some .maxQuantity
  else if MaxPrice < o.price then some .maxPrice
  else if o.orderType ≠ OrderTypeBuy ∧ o.orderType ≠ OrderTypeSell then some .invalidOrderType
  else if ¬ IsValidInstrumentPair o.instrumentPair then some .invalidPairFormat
  else none

/-- Source: `(*Order).GetRequiredAssetAndAmount` (part_000, lines 89-97). -/
def Order.GetRequiredAssetAndAmount (o : Order) : String × ℚ :=
  let assets := stringsSplitUS o.instrumentPair
  if o.orderType = OrderTypeBuy then (assets[1]!, o.price * o.quantity)
  else (assets[0]!, o.quantity)

/-- Source: `entity.Wallet` (models.go): `deleted` models `DeletedAt` being non-NULL. -/
structure Wallet where
  accountID : Nat
  assetSymbol : String
  balance : ℚ
  deleted : Bool

/-- Source: `entity.Trade` (models.go): the fields written by the trade executor. -/
structure Trade where
  buyerOrderID : Nat
  sellerOrderID : Nat
  price : ℚ
  quantity : ℚ

/-- The persistent state the core mutates: the `order`, `wallet` and `trade`
tables, all accessed through one transaction. -/
structure ExchangeState where
  orders : List Order
  wallets : List Wallet
  trades : List Trade

/-- Row predicate of the wallet `UPDATE`:
`account_id = ? AND asset_symbol = ? AND deleted_at IS NULL`. -/
def walletRowMatch (accountID : Nat) (assetSymbol : String) (w : Wallet) : Bool :=
  decide (w.accountID = accountID) && decide (w.assetSymbol = assetSymbol) && !w.deleted

/-- Source: `walletRepository.updateBalance` (wallet_repository.go, lines 88-107):
`UPDATE wallet SET balance = balance ± ? WHERE account_id = ? AND
asset_symbol = ? AND deleted_at IS NULL`; when no row is affected it returns
the error `insufficient balance or wallet not found`. Note the `WHERE` clause
(and the schema, which has no CHECK constraint on `balance`) puts no lower
bound on the resulting balance. -/
def updateBalance (ws : List Wallet) (accountID : Nat) (assetSymbol : String)
    (amount : ℚ) (isAdd : Bool) : Except String (List Wallet) :=
  if ws.any (walletRowMatch accountID assetSymbol) then
    .ok (ws.map (fun w =>
      if walletRowMatch accountID assetSymbol w then
        { w with balance := if isAdd then w.balance + amount else w.balance - amount }
      else w))
  else .error "insufficient balance or wallet not found"

/-- Source: `walletRepository.SubtractFromBalance` (wallet_repository.go, 109-116). -/
def SubtractFromBalance (ws : List Wallet) (accountID : Nat) (assetSymbol : String)
    (amount : ℚ) : Except String (List Wallet) :=
  updateBalance ws accountID assetSymbol amount false

/-- Source: `walletRepository.AddToBalance` (wallet_repository.go, 118-125). -/
def AddToBalance (ws : List Wallet) (accountID : Nat) (assetSymbol : String)
    (amount : ℚ) : Except String (List Wallet) :=
  updateBalance ws accountID assetSymbol amount true

/-- One balance-transfer leg of settlement: a credit (`isAdd`) or debit of
`amount` of `asset` on `accountID`'s wallet. -/
structure LedgerOp where
  isAdd : Bool
  accountID : Nat
  asset : String
  amount : ℚ

/-- Run one leg against the wallet table. -/
def applyLeg (ws : List Wallet) (op : LedgerOp) : Except String (List Wallet) :=
  updateBalance ws op.accountID op.asset op.amount op.isAdd

/-- Run legs in sequence, stopping at the first failing one; also returns the
list of legs that were attempted, in order. -/
def runLegs (ws : List Wallet) : List LedgerOp → List LedgerOp × Except String (List Wallet)
  | [] => ([], .ok ws)
  | op :: rest =>
    match applyLeg ws op with
    | .error e => ([op], .error e)
    | .ok ws1 =>
      let r := runLegs ws1 rest
      (op :: r.1, r.2)

/-- The four balance-transfer legs of `tradeExecutor.settle`
(trade_executor.go, lines 80-107), in source order: base/quote come from
splitting `order.InstrumentPair` on `"_"`, buyer/seller swap when the taker
side is SELL, and `total = matchingOrder.Price * qty`. -/
def settleLegs (order matchingOrder : Order) (qty : ℚ) : List LedgerOp :=
  let parts := stringsSplitUS order.instrumentPair
  let base := parts[0]!
  let quote := parts[1]!
  let buyer := if order.orderType = OrderTypeSell then matchingOrder else order
  let seller := if order.orderType = OrderTypeSell then order else matchingOrder
  let total := matchingOrder.price * qty
  [⟨false, seller.accountID, base, qty⟩,
   ⟨true, buyer.accountID, base, qty⟩,
   ⟨false, buyer.accountID, quote, total⟩,
   ⟨true, seller.accountID, quote, total⟩]

/-- Source: `tradeExecutor.settle` (trade_executor.go, lines 80-107): the four legs
run in order, each failure aborting the remainder; `.1` is the trace of
attempted legs, `.2` the Go return value. -/
def settle (ws : List Wallet) (order matchingOrder : Order) (qty : ℚ) :
    List LedgerOp × Except String (List Wallet) :=
  runLegs ws (settleLegs order matchingOrder qty)

/-- The `newStatus` switch of `tradeExecutor.updateOrderStatus`
(trade_executor.go, lines 61-70). -/
def newStatusFor (o : Order) : String :=
  if o.remainingQuantity = 0 then OrderStatusFilled
  else if o.remainingQuantity = o.quantity then OrderStatusOpen
  else OrderStatusPartiallyFilled

/-- In-memory effect of `tradeExecutor.updateOrderStatus` on the order value
(trade_executor.go, line 76). -/
def updateOrderStatus (o : Order) : Order :=
  { o with status := newStatusFor o }

/-- Source: `orderRepository.UpdateRemainingAndStatus` (wallet_repository.go part 2,
lines 226-252): `UPDATE "order" SET remaining_quantity, status WHERE id = ?`. -/
def updateOrderRow (os : List Order) (o : Order) : List Order :=
  os.map (fun x =>
    if x.id = o.id then
      { x with remainingQuantity := o.remainingQuantity, status := o.status }
    else x)

/-- Source: `tradeExecutor.Execute` (trade_executor.go, lines 29-59). The repository
calls that can only fail on storage faults (`tradeRepo.Create`,
`UpdateRemainingAndStatus`) are modelled as succeeding; the wallet legs keep
their genuine failure case (missing wallet row). On success it returns the new
state together with the updated taker and maker values. -/
def Execute (st : ExchangeState) (order matchingOrder : Order) (qty : ℚ) :
    Except String (ExchangeState × Order × Order) :=
  let buyID := if order.orderType = OrderTypeSell then matchingOrder.id else order.id
  let sellID := if order.orderType = OrderTypeSell then order.id else matchingOrder.id
  let trade : Trade := ⟨buyID, sellID, matchingOrder.price, qty⟩
  let st1 : ExchangeState := { st with trades := st.trades ++ [trade] }
  let order1 := updateOrderStatus
    { order with remainingQuantity := order.remainingQuantity - qty }
  let matching1 := updateOrderStatus
    { matchingOrder with remainingQuantity := matchingOrder.remainingQuantity - qty }
  let st2 : ExchangeState :=
    { st1 with orders := updateOrderRow (updateOrderRow st1.orders order1) matching1 }
  match (settle st2.wallets order1 matching1 qty).2 with
  | .error e => .error e
  | .ok ws1 => .ok ({ st2 with wallets := ws1 }, order1, matching1)

/-- The `oppositeOrderType` computation of `orderUseCase.matchOrder`
(part_010, lines 88-91). -/
def oppositeOrderType (t : String) : String :=
  if t = OrderTypeSell then OrderTypeBuy else OrderTypeSell

/-- Row predicate of the `GetMatchingOrders` query (wallet_repository.go part
2, lines 269-276): same pair, requested side, status in
(OPEN, PARTIALLY_FILLED), a different account, and price-eligible. -/
def matchingPred (accountID : Nat) (pair orderType : String) (price : ℚ)
    (isBuyOrder : Bool) (o : Order) : Bool :=
  decide (o.instrumentPair = pair) && decide (o.orderType = orderType) &&
  (decide (o.status = OrderStatusOpen) || decide (o.status = OrderStatusPartiallyFilled)) &&
  decide (o.accountID ≠ accountID) &&
  (if isBuyOrder then decide (o.price ≤ price) else decide (price ≤ o.price))

/-- The sort key of the `GetMatchingOrders` query: `ORDER BY price ASC,
created_at ASC` for a buy taker, `ORDER BY price DESC, created_at ASC` for a
sell taker, as a boolean total preorder. -/
def matchingLE (isBuyOrder : Bool) (a b : Order) : Bool :=
  if isBuyOrder then
    decide (a.price < b.price) ||
      (decide (a.price = b.price) && decide (a.createdAt ≤ b.createdAt))
  else
    decide (b.price < a.price) ||
      (decide (a.price = b.price) && decide (a.createdAt ≤ b.createdAt))

/-- Source: `orderRepository.GetMatchingOrders` (wallet_repository.go part 2, lines
254-298): the SQL `WHERE` filter followed by the `ORDER BY` sort. -/
def GetMatchingOrders (db : List Order) (accountID : Nat) (pair orderType : String)
    (price : ℚ) (isBuyOrder : Bool) : List Order :=
  (db.filter (matchingPred accountID pair orderType price isBuyOrder)).mergeSort
    (matchingLE isBuyOrder)

/-- The `GetMatchingOrders` call of `orderUseCase.matchOrder` (part_010,
lines 92-99), with the arguments the use case passes for a taker. -/
def getMatchingOrdersFor (db : List Order) (taker : Order) : List Order :=
  GetMatchingOrders db taker.accountID taker.instrumentPair
    (oppositeOrderType taker.orderType) taker.price (taker.orderType == OrderTypeBuy)

/-- The maker loop of `orderUseCase.matchOrder` (part_010, lines 108-117):
`qty = min(remaining, remaining)`, execute, abort on error, break once the
taker's remaining quantity is zero. -/
def matchLoop (st : ExchangeState) (taker : Order) : List Order →
    Except String (ExchangeState × Order)
  | [] => .ok (st, taker)
  | m :: rest =>
    let qty := min taker.remainingQuantity m.remainingQuantity
    match Execute st taker m qty with
    | .error e => .error e
    | .ok (st1, taker1, _) =>
      if taker1.remainingQuantity = 0 then .ok (st1, taker1)
      else matchLoop st1 taker1 rest

/-- Source: `orderUseCase.matchOrder` (part_010, lines 81-118): fetch the eligible
makers; with none, return at once; otherwise run the maker loop. -/
def matchOrder (st : ExchangeState) (taker : Order) :
    Except String (ExchangeState × Order) :=
  let makers := getMatchingOrdersFor st.orders taker
  if makers.length = 0 then .ok (st, taker)
  else matchLoop st taker makers

/-- Source: `orderRepository.GetOpenOrdersByInstrumentPair` (wallet_repository.go part
2, lines 167-185): `WHERE instrument_pair = ? AND status = 'OPEN'`. -/
def GetOpenOrdersByInstrumentPair (db : List Order) (instrumentPair : String) :
    List Order :=
  db.filter (fun o =>
    decide (o.instrumentPair = instrumentPair) && decide (o.status = OrderStatusOpen))

/-- Source: `usecase.OrderBookEntry` (part_005). -/
structure OrderBookEntry where
  price : ℚ
  quantity : ℚ

/-- Source: `usecase.OrderBook` (part_005). -/
structure OrderBook where
  instrumentPair : String
  bids : List OrderBookEntry
  asks : List OrderBookEntry

/-- The per-price accumulated quantity of the `bidsMap`/`asksMap` of
`orderUseCase.GetOrderBook` (part_010, lines 182-191). The Go maps are keyed
by `Price.String()`, the canonical decimal string (trailing zeros trimmed),
so two prices share a key exactly when they are equal as rationals; the value
is the sum of the `RemainingQuantity` of the grouped orders. -/
def sumRemaining (orders : List Order) (p : ℚ) : ℚ :=
  ((orders.filter (fun o => decide (o.price = p))).map Order.remainingQuantity).sum

/-- One side of `orderUseCase.GetOrderBook` (part_010, lines 193-219): the
distinct price levels, sorted descending (bids) or ascending (asks), each with
its accumulated quantity. -/
def sideLevels (orders : List Order) (desc : Bool) : List OrderBookEntry :=
  let prices := (orders.map Order.price).dedup
  let sorted := prices.mergeSort (fun a b =>
    if desc then decide (b ≤ a) else decide (a ≤ b))
  sorted.map (fun p => ⟨p, sumRemaining orders p⟩)

/-- The aggregation step of `orderUseCase.GetOrderBook` (part_010, lines
176-221): BUY orders feed the bids, all others the asks. -/
def buildOrderBook (pair : String) (orders : List Order) : OrderBook :=
  ⟨pair,
   sideLevels (orders.filter (fun o => decide (o.orderType = OrderTypeBuy))) true,
   sideLevels (orders.filter (fun o => decide (¬ o.orderType = OrderTypeBuy))) false⟩

/-- Source: `orderUseCase.GetOrderBook` (part_010, lines 160-222): pair-format check,
fetch, `nil, nil` on an empty fetch (modelled `.ok none`), otherwise the
aggregated book. -/
def GetOrderBook (db : List Order) (instrumentPair : String) :
    Except OrderErr (Option OrderBook) :=
  if ¬ IsValidInstrumentPair instrumentPair then .error .invalidPairFormat
  else
    let orders := GetOpenOrdersByInstrumentPair db instrumentPair
    if orders.length = 0 then .ok none
    else .ok (some (buildOrderBook instrumentPair orders))

/-! Concrete fixtures used by examples and witnesses. -/

/-- Fixture: the spec's BUY coverage example (0.5 BTC_BRL at 200000.00). -/
def oBuyEx : Order := ⟨1, 1, "BTC_BRL", "BUY", 200000, 1/2, 1/2, "OPEN", 0⟩

/-- Fixture: the spec's SELL coverage example (0.5 BTC_BRL at 200000.00). -/
def oSellEx : Order := ⟨2, 1, "BTC_BRL", "SELL", 200000, 1/2, 1/2, "OPEN", 0⟩

/-- Fixture: a taker order, BUY 1 BTC_BRL at 2, account 1. -/
def takerW : Order := ⟨10, 1, "BTC_BRL", "BUY", 2, 1, 1, "OPEN", 5⟩

/-- Fixture: a resting maker, SELL 2 BTC_BRL at 2, account 2, older. -/
def makerW : Order := ⟨11, 2, "BTC_BRL", "SELL", 2, 2, 2, "OPEN", 3⟩

/-- Fixture: wallet table covering both legs for accounts 1 and 2. -/
def walletsW : List Wallet :=
  [⟨2, "BTC", 5, false⟩, ⟨1, "BTC", 0, false⟩, ⟨1, "BRL", 10, false⟩, ⟨2, "BRL", 0, false⟩]

/-- Fixture: state before the match of `takerW` against `makerW`. -/
def stW : ExchangeState := ⟨[takerW, makerW], walletsW, []⟩

/-- Fixture: `takerW` after trading quantity 1: fully filled. -/
def takerW1 : Order := ⟨10, 1, "BTC_BRL", "BUY", 2, 1, 0, "FILLED", 5⟩

/-- Fixture: `makerW` after trading quantity 1: partially filled. -/
def makerW1 : Order := ⟨11, 2, "BTC_BRL", "SELL", 2, 2, 1, "PARTIALLY_FILLED", 3⟩

/-- Fixture: state after the trade of quantity 1 at price 2 settles. -/
def stW1 : ExchangeState := ⟨[takerW1, makerW1],
  [⟨2, "BTC", 4, false⟩, ⟨1, "BTC", 1, false⟩, ⟨1, "BRL", 8, false⟩, ⟨2, "BRL", 2, false⟩],
  [⟨10, 11, 2, 1⟩]⟩

/-- Fixture: a partially filled BUY order resting on BTC_BRL. -/
def oPartial : Order := ⟨21, 3, "BTC_BRL", "BUY", 100, 2, 1, "PARTIALLY_FILLED", 0⟩

/-- Fixture: open BUY at decimal price "100", remaining 1.0. -/
def oBid1 : Order := ⟨31, 1, "BTC_BRL", "BUY", 100, 1, 1, "OPEN", 0⟩

/-- Fixture: open BUY at decimal price "100.00" (the same rational 100),
remaining 0.4. -/
def oBid2 : Order := ⟨32, 2, "BTC_BRL", "BUY", 100, 2/5, 2/5, "OPEN", 1⟩

end MBC

namespace MBC

/-! Shared helper lemmas. -/

theorem matchingLE_true_iff (a b : Order) :
    matchingLE true a b = true ↔
      a.price < b.price ∨ (a.price = b.price ∧ a.createdAt ≤ b.createdAt) := by
  simp [matchingLE]

theorem matchingLE_false_iff (a b : Order) :
    matchingLE false a b = true ↔
      b.price < a.price ∨ (a.price = b.price ∧ a.createdAt ≤ b.createdAt) := by
  simp [matchingLE]

theorem matchingLE_trans (isBuyOrder : Bool) (a b c : Order)
    (hab : matchingLE isBuyOrder a b = true) (hbc : matchingLE isBuyOrder b c = true) :
    matchingLE isBuyOrder a c = true := by
  cases isBuyOrder
  · rw [matchingLE_false_iff] at hab hbc ⊢
    rcases hab with h | ⟨h1, h2⟩ <;> rcases hbc with h' | ⟨h1', h2'⟩
    · exact Or.inl (h'.trans h)
    · exact Or.inl (lt_of_le_of_lt (le_of_eq h1'.symm) h)
    · exact Or.inl (lt_of_lt_of_le h' (le_of_eq h1.symm))
    · exact Or.inr ⟨h1.trans h1', h2.trans h2'⟩
  · rw [matchingLE_true_iff] at hab hbc ⊢
    rcases hab with h | ⟨h1, h2⟩ <;> rcases hbc with h' | ⟨h1', h2'⟩
    · exact Or.inl (h.trans h')
    · exact Or.inl (lt_of_lt_of_le h (le_of_eq h1'))
    · exact Or.inl (lt_of_le_of_lt (le_of_eq h1) h')
    · exact Or.inr ⟨h1.trans h1', h2.trans h2'⟩

theorem matchingLE_total (isBuyOrder : Bool) (a b : Order) :
    (matchingLE isBuyOrder a b || matchingLE isBuyOrder b a) = true := by
  rw [Bool.or_eq_true]
  cases isBuyOrder
  · rw [matchingLE_false_iff, matchingLE_false_iff]
    rcases lt_trichotomy a.price b.price with h | h | h
    · exact Or.inr (Or.inl h)
    · rcases Nat.le_total a.createdAt b.createdAt with ht | ht
      · exact Or.inl (Or.inr ⟨h, ht⟩)
      · exact Or.inr (Or.inr ⟨h.symm, ht⟩)
    · exact Or.inl (Or.inl h)
  · rw [matchingLE_true_iff, matchingLE_true_iff]
    rcases lt_trichotomy a.price b.price with h | h | h
    · exact Or.inl (Or.inl h)
    · rcases Nat.le_total a.createdAt b.createdAt with ht | ht
      · exact Or.inl (Or.inr ⟨h, ht⟩)
      · exact Or.inr (Or.inr ⟨h.symm, ht⟩)
    · exact Or.inr (Or.inl h)

theorem runLegs_take (ws : List Wallet) (ops : List LedgerOp) :
    ∃ k ≤ ops.length, (runLegs ws ops).1 = ops.take k ∧
      (∀ ws1, (runLegs ws ops).2 = .ok ws1 → k = ops.length) := by
  induction ops generalizing ws with
  | nil => exact ⟨0, by simp [runLegs]⟩
  | cons op rest ih =>
    cases h : applyLeg ws op with
    | error e =>
      refine ⟨1, by simp, by simp [runLegs, h], ?_⟩
      intro ws1 h1
      simp [runLegs, h] at h1
    | ok ws2 =>
      obtain ⟨k, hk, htr, hok⟩ := ih ws2
      refine ⟨k + 1, by simpa using hk, by simp [runLegs, h, htr], ?_⟩
      intro ws1 h1
      simp only [runLegs, h] at h1
      simpa using hok ws1 h1

theorem updateOrderStatus_cases (o : Order) (hq : 0 < o.quantity) :
    (updateOrderStatus o).remainingQuantity = o.remainingQuantity ∧
    (updateOrderStatus o).quantity = o.quantity ∧
    (o.remainingQuantity = 0 → (updateOrderStatus o).status = OrderStatusFilled) ∧
    (o.remainingQuantity = o.quantity → (updateOrderStatus o).status = OrderStatusOpen) ∧
    (0 < o.remainingQuantity ∧ o.remainingQuantity < o.quantity →
      (updateOrderStatus o).status = OrderStatusPartiallyFilled) := by
  refine ⟨rfl, rfl, ?_, ?_, ?_⟩
  · intro h0
    simp only [updateOrderStatus, newStatusFor]
    rw [if_pos h0]
  · intro he
    have h0 : ¬ o.remainingQuantity = 0 := by rw [he]; exact ne_of_gt hq
    simp only [updateOrderStatus, newStatusFor]
    rw [if_neg h0, if_pos he]
  · rintro ⟨hpos, hlt⟩
    simp only [updateOrderStatus, newStatusFor]
    rw [if_neg hpos.ne', if_neg hlt.ne]

theorem Execute_ok_elim {st st' : ExchangeState} {order matchingOrder o1 m1 : Order}
    {qty : ℚ} (h : Execute st order matchingOrder qty = .ok (st', o1, m1)) :
    o1 = updateOrderStatus
      { order with remainingQuantity := order.remainingQuantity - qty } ∧
    m1 = updateOrderStatus
      { matchingOrder with remainingQuantity := matchingOrder.remainingQuantity - qty } ∧
    st'.trades = st.trades ++
      [⟨if order.orderType = OrderTypeSell then matchingOrder.id else order.id,
        if order.orderType = OrderTypeSell then order.id else matchingOrder.id,
        matchingOrder.price, qty⟩] := by
  simp only [Execute] at h
  split at h
  · exact absurd h (by simp)
  · simp only [Except.ok.injEq, Prod.mk.injEq] at h
    obtain ⟨hst, ho, hm⟩ := h
    exact ⟨ho.symm, hm.symm, by rw [← hst]⟩

theorem mem_sideLevels (orders : List Order) (desc : Bool) (e : OrderBookEntry) :
    e ∈ sideLevels orders desc ↔
      ((∃ o ∈ orders, o.price = e.price) ∧
        e.quantity = sumRemaining orders e.price) := by
  obtain ⟨ep, eq⟩ := e
  simp only [sideLevels, List.mem_map, List.mem_mergeSort, List.mem_dedup,
    OrderBookEntry.mk.injEq]
  constructor
  · rintro ⟨p, ⟨o, ho, hop⟩, hpe, hqe⟩
    subst hpe
    exact ⟨⟨o, ho, hop⟩, hqe.symm⟩
  · rintro ⟨⟨o, ho, hop⟩, hq⟩
    exact ⟨ep, ⟨o, ho, hop⟩, rfl, hq.symm⟩

theorem sideLevels_sorted_desc (orders : List Order) :
    (sideLevels orders true).Pairwise (fun a b => b.price < a.price) := by
  unfold sideLevels
  rw [List.pairwise_map]
  have hs := @List.sorted_mergeSort ℚ
    (fun a b : ℚ => if (true : Bool) then decide (b ≤ a) else decide (a ≤ b))
    (fun a b c h1 h2 => by simp at h1 h2 ⊢; exact h2.trans h1)
    (fun a b => by simp; exact le_total b a)
    ((orders.map Order.price).dedup)
  have hnd : ((orders.map Order.price).dedup.mergeSort
      (fun a b : ℚ => if (true : Bool) then decide (b ≤ a) else decide (a ≤ b))).Nodup :=
    ((List.mergeSort_perm _ _).nodup_iff).mpr (List.nodup_dedup _)
  refine (hs.and hnd).imp ?_
  rintro a b ⟨h1, h2⟩
  simp at h1
  exact lt_of_le_of_ne h1 (Ne.symm h2)

theorem sideLevels_sorted_asc (orders : List Order) :
    (sideLevels orders false).Pairwise (fun a b => a.price < b.price) := by
  unfold sideLevels
  rw [List.pairwise_map]
  have hs := @List.sorted_mergeSort ℚ
    (fun a b : ℚ => if (false : Bool) then decide (b ≤ a) else decide (a ≤ b))
    (fun a b c h1 h2 => by simp at h1 h2 ⊢; exact h1.trans h2)
    (fun a b => by simp; exact le_total a b)
    ((orders.map Order.price).dedup)
  have hnd : ((orders.map Order.price).dedup.mergeSort
      (fun a b : ℚ => if (false : Bool) then decide (b ≤ a) else decide (a ≤ b))).Nodup :=
    ((List.mergeSort_perm _ _).nodup_iff).mpr (List.nodup_dedup _)
  refine (hs.and hnd).imp ?_
  rintro a b ⟨h1, h2⟩
  simp at h1
  exact lt_of_le_of_ne h1 h2

/-! Claim theorems. -/

/-- C8: `Order.Validate` performs its checks in exactly the source order,
short-circuiting on the first failure with a distinct error per check: price,
quantity, quantity bound, price bound, side, pair format; an order passing all
checks validates with `none` (and the function is pure). Each clause
characterises one outcome completely. -/
theorem Validate_ordered_checks (o : Order) :
    (o.Validate = some .invalidPrice ↔ o.price ≤ 0) ∧
    (o.Validate = some .invalidQuantity ↔ 0 < o.price ∧ o.quantity ≤ 0) ∧
    (o.Validate = some .maxQuantity ↔
      0 < o.price ∧ 0 < o.quantity ∧ MaxQuantity < o.quantity) ∧
    (o.Validate = some .maxPrice ↔
      0 < o.price ∧ 0 < o.quantity ∧ o.quantity ≤ MaxQuantity ∧ MaxPrice < o.price) ∧
    (o.Validate = some .invalidOrderType ↔
      0 < o.price ∧ 0 < o.quantity ∧ o.quantity ≤ MaxQuantity ∧ o.price ≤ MaxPrice ∧
      o.orderType ≠ OrderTypeBuy ∧ o.orderType ≠ OrderTypeSell) ∧
    (o.Validate = some .invalidPairFormat ↔
      0 < o.price ∧ 0 < o.quantity ∧ o.quantity ≤ MaxQuantity ∧ o.price ≤ MaxPrice ∧
      (o.orderType = OrderTypeBuy ∨ o.orderType = OrderTypeSell) ∧
      IsValidInstrumentPair o.instrumentPair = false) ∧
    (o.Validate = none ↔
      0 < o.price ∧ 0 < o.quantity ∧ o.quantity ≤ MaxQuantity ∧ o.price ≤ MaxPrice ∧
      (o.orderType = OrderTypeBuy ∨ o.orderType = OrderTypeSell) ∧
      IsValidInstrumentPair o.instrumentPair = true) := by
  unfold Order.Validate
  split_ifs with h1 h2 h3 h4 h5 h6 <;>
    simp_all [not_le, not_lt, not_and_or, not_not, Decidable.not_not] <;>
    tauto

/-- C8 witness: a concrete order failing only the price check. -/
theorem Validate_ordered_checks_witness :
    Order.Validate ⟨3, 1, "BTC_BRL", "BUY", 0, 1, 1, "OPEN", 0⟩ = some .invalidPrice :=
  (Validate_ordered_checks _).1.mpr (by norm_num)

/-- C10: splitting the instrument pair on the underscore yields exactly two
components whenever `IsValidInstrumentPair` holds, so the index-0/index-1
accesses of `Order.GetRequiredAssetAndAmount` and `settleLegs` are in bounds;
for a pair without a separator the split has a single component, so index 1
would be out of bounds. -/
theorem validPair_split_bounds :
    (∀ pair : String, IsValidInstrumentPair pair = true →
      (stringsSplitUS pair).length = 2) ∧
    (stringsSplitUS "BTCBRL").length = 1 := by
  refine ⟨?_, by decide⟩
  intro pair h
  simp only [IsValidInstrumentPair, Bool.and_eq_true, decide_eq_true_eq] at h
  exact h.1.1

/-- C10 witness: the bound applied at the concrete valid pair `BTC_BRL`. -/
theorem validPair_split_bounds_witness :
    IsValidInstrumentPair "BTC_BRL" = true ∧ (stringsSplitUS "BTC_BRL").length = 2 :=
  ⟨by decide, validPair_split_bounds.1 "BTC_BRL" (by decide)⟩

/-- C7: for an order whose pair splits as `[base, quote]`, the required
coverage is the quote asset with amount `price * quantity` for a BUY and the
base asset with amount `quantity` for a SELL; in particular a BUY of 0.5
BTC_BRL at 200000 requires (BRL, 100000) and a SELL requires (BTC, 0.5). -/
theorem getRequiredAssetAndAmount_spec :
    (∀ (o : Order) (base quote : String),
      stringsSplitUS o.instrumentPair = [base, quote] →
      (o.orderType = OrderTypeBuy →
        o.GetRequiredAssetAndAmount = (quote, o.price * o.quantity)) ∧
      (o.orderType = OrderTypeSell →
        o.GetRequiredAssetAndAmount = (base, o.quantity))) ∧
    oBuyEx.GetRequiredAssetAndAmount = ("BRL", 100000) ∧
    oSellEx.GetRequiredAssetAndAmount = ("BTC", 1/2) := by
  have hsp : stringsSplitUS "BTC_BRL" = ["BTC", "BRL"] := by decide
  refine ⟨?_, ?_, ?_⟩
  · intro o base quote hs
    constructor
    · intro hb
      simp [Order.GetRequiredAssetAndAmount, hs, hb]
    · intro hsell
      simp [Order.GetRequiredAssetAndAmount, hs, hsell, OrderTypeSell, OrderTypeBuy]
  · simp [Order.GetRequiredAssetAndAmount, oBuyEx, hsp, OrderTypeBuy]
    norm_num
  · simp [Order.GetRequiredAssetAndAmount, oSellEx, hsp, OrderTypeBuy]

/-- C7 witness: the general clause applied to the concrete BUY example. -/
theorem getRequiredAssetAndAmount_witness :
    stringsSplitUS oBuyEx.instrumentPair = ["BTC", "BRL"] ∧
    oBuyEx.orderType = OrderTypeBuy ∧
    oBuyEx.GetRequiredAssetAndAmount = ("BRL", oBuyEx.price * oBuyEx.quantity) :=
  ⟨by decide, rfl,
    (getRequiredAssetAndAmount_spec.1 oBuyEx "BTC" "BRL" (by decide)).1 rfl⟩

/-- C5: when a trade execution succeeds, both the taker and the maker leave
`Execute` with their remaining quantity decremented by the traded quantity and
their status recomputed from it: FILLED at zero, OPEN at the original
quantity, PARTIALLY_FILLED strictly in between. -/
theorem Execute_recomputes_status (st st' : ExchangeState)
    (order matchingOrder o1 m1 : Order) (qty : ℚ)
    (hq : 0 < order.quantity) (hmq : 0 < matchingOrder.quantity)
    (h : Execute st order matchingOrder qty = .ok (st', o1, m1)) :
    o1.remainingQuantity = order.remainingQuantity - qty ∧
    o1.quantity = order.quantity ∧
    (o1.remainingQuantity = 0 → o1.status = OrderStatusFilled) ∧
    (o1.remainingQuantity = order.quantity → o1.status = OrderStatusOpen) ∧
    (0 < o1.remainingQuantity ∧ o1.remainingQuantity < order.quantity →
      o1.status = OrderStatusPartiallyFilled) ∧
    m1.remainingQuantity = matchingOrder.remainingQuantity - qty ∧
    m1.quantity = matchingOrder.quantity ∧
    (m1.remainingQuantity = 0 → m1.status = OrderStatusFilled) ∧
    (m1.remainingQuantity = matchingOrder.quantity → m1.status = OrderStatusOpen) ∧
    (0 < m1.remainingQuantity ∧ m1.remainingQuantity < matchingOrder.quantity →
      m1.status = OrderStatusPartiallyFilled) := by
  obtain ⟨ho, hm, -⟩ := Execute_ok_elim h
  subst ho hm
  obtain ⟨u1, u2, u3, u4, u5⟩ := updateOrderStatus_cases
    { order with remainingQuantity := order.remainingQuantity - qty } hq
  obtain ⟨v1, v2, v3, v4, v5⟩ := updateOrderStatus_cases
    { matchingOrder with remainingQuantity := matchingOrder.remainingQuantity - qty } hmq
  exact ⟨u1, u2, u3, u4, u5, v1, v2, v3, v4, v5⟩

/-- C5 witness: the concrete trade of quantity 1 between `takerW` (remaining
1) and `makerW` (remaining 2) fills the taker and leaves the maker partially
filled. -/
theorem Execute_recomputes_status_witness :
    0 < takerW.quantity ∧ 0 < makerW.quantity ∧
    Execute stW takerW makerW 1 = .ok (stW1, takerW1, makerW1) ∧
    takerW1.status = OrderStatusFilled ∧
    makerW1.status = OrderStatusPartiallyFilled := by
  have hq : 0 < takerW.quantity := by norm_num [takerW]
  have hmq : 0 < makerW.quantity := by norm_num [makerW]
  have h01 : (stringsSplitUS "BTC_BRL")[0]! = "BTC" := by decide
  have h11 : (stringsSplitUS "BTC_BRL")[1]! = "BRL" := by decide
  have a1 : (1:ℚ) - 1 = 0 := by norm_num
  have a2 : (2:ℚ) - 1 = 1 := by norm_num
  have a3 : (2:ℚ) * 1 = 2 := by norm_num
  have a4 : (5:ℚ) - 1 = 4 := by norm_num
  have a5 : (0:ℚ) + 1 = 1 := by norm_num
  have a6 : (10:ℚ) - 2 = 8 := by norm_num
  have a7 : (0:ℚ) + 2 = 2 := by norm_num
  have b1 : ¬ (1:ℚ) = 0 := by norm_num
  have b2 : ¬ (1:ℚ) = 2 := by norm_num
  have hE : Execute stW takerW makerW 1 = .ok (stW1, takerW1, makerW1) := by
    simp [Execute, settle, settleLegs, runLegs, applyLeg, updateBalance,
      walletRowMatch, updateOrderStatus, newStatusFor, updateOrderRow,
      OrderTypeSell, OrderTypeBuy, OrderStatusFilled, OrderStatusOpen,
      OrderStatusPartiallyFilled, stW, stW1, takerW, makerW, takerW1, makerW1,
      walletsW, h01, h11, a1, a2, a3, a4, a5, a6, a7, b1, b2]
  have hs := Execute_recomputes_status stW stW1 takerW makerW takerW1 makerW1 1 hq hmq hE
  refine ⟨hq, hmq, hE, hs.2.2.1 ?_, hs.2.2.2.2.2.2.2.2.2 ?_⟩
  · norm_num [takerW1]
  · constructor <;> norm_num [makerW1, makerW]

/-- C2: settlement records the trade at the maker's (resting order's) limit
price and transfers balances in exactly four legs in the source's fixed order
(debit seller base qty, credit buyer base qty, debit buyer quote total, credit
seller quote total, with `total` the maker's price times qty, buyer/seller
being the BUY/SELL side); the attempted legs always form a prefix of that
list, all four run exactly when settlement succeeds. -/
theorem settle_maker_price_and_legs (st : ExchangeState) (ws : List Wallet)
    (order matchingOrder : Order) (qty : ℚ) :
    (∀ st' o1 m1, Execute st order matchingOrder qty = .ok (st', o1, m1) →
      st'.trades = st.trades ++
        [⟨if order.orderType = OrderTypeSell then matchingOrder.id else order.id,
          if order.orderType = OrderTypeSell then order.id else matchingOrder.id,
          matchingOrder.price, qty⟩]) ∧
    (order.orderType = OrderTypeBuy → matchingOrder.orderType = OrderTypeSell →
      settleLegs order matchingOrder qty =
        [⟨false, matchingOrder.accountID, (stringsSplitUS order.instrumentPair)[0]!, qty⟩,
         ⟨true, order.accountID, (stringsSplitUS order.instrumentPair)[0]!, qty⟩,
         ⟨false, order.accountID, (stringsSplitUS order.instrumentPair)[1]!,
           matchingOrder.price * qty⟩,
         ⟨true, matchingOrder.accountID, (stringsSplitUS order.instrumentPair)[1]!,
           matchingOrder.price * qty⟩]) ∧
    (order.orderType = OrderTypeSell → matchingOrder.orderType = OrderTypeBuy →
      settleLegs order matchingOrder qty =
        [⟨false, order.accountID, (stringsSplitUS order.instrumentPair)[0]!, qty⟩,
         ⟨true, matchingOrder.accountID, (stringsSplitUS order.instrumentPair)[0]!, qty⟩,
         ⟨false, matchingOrder.accountID, (stringsSplitUS order.instrumentPair)[1]!,
           matchingOrder.price * qty⟩,
         ⟨true, order.accountID, (stringsSplitUS order.instrumentPair)[1]!,
           matchingOrder.price * qty⟩]) ∧
    (∃ k ≤ (settleLegs order matchingOrder qty).length,
      (settle ws order matchingOrder qty).1 = (settleLegs order matchingOrder qty).take k ∧
      (∀ ws1, (settle ws order matchingOrder qty).2 = .ok ws1 →
        k = (settleLegs order matchingOrder qty).length)) ∧
    (settleLegs order matchingOrder qty).length = 4 := by
  refine ⟨?_, ?_, ?_, ?_, ?_⟩
  · intro st' o1 m1 h
    exact (Execute_ok_elim h).2.2
  · intro hb hm
    simp [settleLegs, hb, hm, OrderTypeBuy, OrderTypeSell]
  · intro hs hm
    simp [settleLegs, hs, hm, OrderTypeBuy, OrderTypeSell]
  · exact runLegs_take ws (settleLegs order matchingOrder qty)
  · simp [settleLegs]

/-- C2 witness: the concrete BUY-taker/SELL-maker pair: the recorded trade
carries the maker's price, and all four legs run in order on `walletsW`. -/
theorem settle_maker_price_and_legs_witness :
    takerW.orderType = OrderTypeBuy ∧ makerW.orderType = OrderTypeSell ∧
    Execute stW takerW makerW 1 = .ok (stW1, takerW1, makerW1) ∧
    stW1.trades = stW.trades ++ [⟨takerW.id, makerW.id, makerW.price, 1⟩] ∧
    settleLegs takerW makerW 1 =
      [⟨false, makerW.accountID, "BTC", 1⟩, ⟨true, takerW.accountID, "BTC", 1⟩,
       ⟨false, takerW.accountID, "BRL", makerW.price * 1⟩,
       ⟨true, makerW.accountID, "BRL", makerW.price * 1⟩] := by
  have h01 : (stringsSplitUS "BTC_BRL")[0]! = "BTC" := by decide
  have h11 : (stringsSplitUS "BTC_BRL")[1]! = "BRL" := by decide
  have a1 : (1:ℚ) - 1 = 0 := by norm_num
  have a2 : (2:ℚ) - 1 = 1 := by norm_num
  have a3 : (2:ℚ) * 1 = 2 := by norm_num
  have a4 : (5:ℚ) - 1 = 4 := by norm_num
  have a5 : (0:ℚ) + 1 = 1 := by norm_num
  have a6 : (10:ℚ) - 2 = 8 := by norm_num
  have a7 : (0:ℚ) + 2 = 2 := by norm_num
  have b1 : ¬ (1:ℚ) = 0 := by norm_num
  have b2 : ¬ (1:ℚ) = 2 := by norm_num
  have hE : Execute stW takerW makerW 1 = .ok (stW1, takerW1, makerW1) := by
    simp [Execute, settle, settleLegs, runLegs, applyLeg, updateBalance,
      walletRowMatch, updateOrderStatus, newStatusFor, updateOrderRow,
      OrderTypeSell, OrderTypeBuy, OrderStatusFilled, OrderStatusOpen,
      OrderStatusPartiallyFilled, stW, stW1, takerW, makerW, takerW1, makerW1,
      walletsW, h01, h11, a1, a2, a3, a4, a5, a6, a7, b1, b2]
  have hspec := settle_maker_price_and_legs stW stW.wallets takerW makerW 1
  refine ⟨rfl, rfl, hE, ?_, ?_⟩
  · have := hspec.1 stW1 takerW1 makerW1 hE
    simpa [takerW, makerW, OrderTypeSell] using this
  · have := hspec.2.1 rfl rfl
    simpa [takerW, makerW, h01, h11] using this

/-- C4: the matching loop of `matchOrder` consumes the fetched makers in list
order with trade quantity `min(taker remaining, maker remaining)`; with no
eligible makers it succeeds leaving the state untouched; a settlement error
aborts the whole match with that error; once the taker's remaining quantity
reaches zero the remaining makers are not consumed, otherwise the loop
continues on the tail. -/
theorem matchOrder_loop_spec (st st1 : ExchangeState)
    (taker taker1 m1 maker : Order) (rest : List Order) :
    (getMatchingOrdersFor st.orders taker = [] → matchOrder st taker = .ok (st, taker)) ∧
    (getMatchingOrdersFor st.orders taker ≠ [] →
      matchOrder st taker = matchLoop st taker (getMatchingOrdersFor st.orders taker)) ∧
    (matchLoop st taker [] = .ok (st, taker)) ∧
    (∀ e, Execute st taker maker (min taker.remainingQuantity maker.remainingQuantity) =
        .error e →
      matchLoop st taker (maker :: rest) = .error e) ∧
    (Execute st taker maker (min taker.remainingQuantity maker.remainingQuantity) =
        .ok (st1, taker1, m1) →
      (taker1.remainingQuantity = 0 →
        matchLoop st taker (maker :: rest) = .ok (st1, taker1)) ∧
      (taker1.remainingQuantity ≠ 0 →
        matchLoop st taker (maker :: rest) = matchLoop st1 taker1 rest)) := by
  refine ⟨?_, ?_, ?_, ?_, ?_⟩
  · intro h
    simp [matchOrder, h]
  · intro h
    have hlen : ¬ (getMatchingOrdersFor st.orders taker).length = 0 := by
      simpa [List.length_eq_zero] using h
    simp [matchOrder, hlen]
  · simp [matchLoop]
  · intro e he
    simp [matchLoop, he]
  · intro h
    constructor <;> intro h0 <;> simp [matchLoop, h, h0]

/-- C4 witness: with no makers the state is untouched; a missing wallet makes
the loop abort with the settlement error; and filling the taker on the first
maker stops the loop before the second maker. -/
theorem matchOrder_loop_spec_witness :
    matchOrder ⟨[], walletsW, []⟩ takerW = .ok (⟨[], walletsW, []⟩, takerW) ∧
    matchLoop ⟨[takerW, makerW], [], []⟩ takerW [makerW] =
      .error "insufficient balance or wallet not found" ∧
    matchLoop stW takerW [makerW, makerW] = .ok (stW1, takerW1) := by
  have h01 : (stringsSplitUS "BTC_BRL")[0]! = "BTC" := by decide
  have h11 : (stringsSplitUS "BTC_BRL")[1]! = "BRL" := by decide
  have hmin : min takerW.remainingQuantity makerW.remainingQuantity = 1 := by
    norm_num [takerW, makerW]
  have a1 : (1:ℚ) - 1 = 0 := by norm_num
  have a2 : (2:ℚ) - 1 = 1 := by norm_num
  have a3 : (2:ℚ) * 1 = 2 := by norm_num
  have a4 : (5:ℚ) - 1 = 4 := by norm_num
  have a5 : (0:ℚ) + 1 = 1 := by norm_num
  have a6 : (10:ℚ) - 2 = 8 := by norm_num
  have a7 : (0:ℚ) + 2 = 2 := by norm_num
  have b1 : ¬ (1:ℚ) = 0 := by norm_num
  have b2 : ¬ (1:ℚ) = 2 := by norm_num
  refine ⟨?_, ?_, ?_⟩
  · refine (matchOrder_loop_spec ⟨[], walletsW, []⟩ stW takerW takerW takerW takerW []).1 ?_
    simp [getMatchingOrdersFor, GetMatchingOrders]
  · have hErr : Execute ⟨[takerW, makerW], [], []⟩ takerW makerW
        (min takerW.remainingQuantity makerW.remainingQuantity) =
        .error "insufficient balance or wallet not found" := by
      rw [hmin]
      simp [Execute, settle, settleLegs, runLegs, applyLeg, updateBalance,
        walletRowMatch, updateOrderStatus, newStatusFor, updateOrderRow,
        OrderTypeSell, takerW, makerW, h01, h11]
    exact (matchOrder_loop_spec ⟨[takerW, makerW], [], []⟩ stW takerW takerW
      takerW makerW []).2.2.2.1 _ hErr
  · have hE : Execute stW takerW makerW
        (min takerW.remainingQuantity makerW.remainingQuantity) =
        .ok (stW1, takerW1, makerW1) := by
      rw [hmin]
      simp [Execute, settle, settleLegs, runLegs, applyLeg, updateBalance,
        walletRowMatch, updateOrderStatus, newStatusFor, updateOrderRow,
        OrderTypeSell, OrderTypeBuy, OrderStatusFilled, OrderStatusOpen,
        OrderStatusPartiallyFilled, stW, stW1, takerW, makerW, takerW1, makerW1,
        walletsW, h01, h11, a1, a2, a3, a4, a5, a6, a7, b1, b2]
    refine ((matchOrder_loop_spec stW stW1 takerW takerW1 makerW1 makerW
      [makerW]).2.2.2.2 hE).1 ?_
    norm_num [takerW1]

/-- C3 (code bug): the ledger debit does not reject an update that takes the
balance negative. With one wallet `(account 7, BTC, balance 1)`, a debit of 2
returns success and records balance -1, where the claim requires failure with
the balance left unchanged; the missing-wallet half does fail as claimed. -/
theorem SubtractFromBalance_goes_negative :
    SubtractFromBalance [⟨7, "BTC", 1, false⟩] 7 "BTC" 2 =
      .ok [⟨7, "BTC", -1, false⟩] ∧
    SubtractFromBalance [] 7 "BTC" 2 =
      .error "insufficient balance or wallet not found" := by
  constructor
  · have ha : (1:ℚ) - 2 = -1 := by norm_num
    simp [SubtractFromBalance, updateBalance, walletRowMatch, ha]
  · simp [SubtractFromBalance, updateBalance, walletRowMatch]

/-- C6 counterexample: the fetch behind the order-book aggregation selects
only status OPEN, so a PARTIALLY_FILLED order of the pair is not part of the
aggregation's input: with it as the only order the book call returns `none`,
though the claim requires the aggregation to operate over all OPEN or
PARTIALLY_FILLED orders of the pair. -/
theorem getOrderBook_skips_partly_filled :
    oPartial.instrumentPair = "BTC_BRL" ∧
    oPartial.status = OrderStatusPartiallyFilled ∧
    GetOpenOrdersByInstrumentPair [oPartial] "BTC_BRL" = [] ∧
    GetOrderBook [oPartial] "BTC_BRL" = .ok none := by
  have hv : IsValidInstrumentPair "BTC_BRL" = true := by decide
  refine ⟨rfl, rfl, ?_, ?_⟩ <;>
    simp [GetOrderBook, GetOpenOrdersByInstrumentPair, oPartial, hv,
      OrderStatusOpen]

/-- C6 (amended): the order-book aggregation operates over the orders of the
pair whose status is exactly OPEN (partially filled orders are excluded by
the fetch); with zero such orders it returns `none` without an error, and an
invalid pair yields the pair-format error before any fetch, whatever the
stored orders. -/
theorem getOrderBook_openOnly (db : List Order) (pair : String) :
    (IsValidInstrumentPair pair = false →
      GetOrderBook db pair = .error .invalidPairFormat) ∧
    (GetOpenOrdersByInstrumentPair db pair =
      db.filter (fun o =>
        decide (o.instrumentPair = pair) && decide (o.status = OrderStatusOpen))) ∧
    (IsValidInstrumentPair pair = true →
      GetOpenOrdersByInstrumentPair db pair = [] →
      GetOrderBook db pair = .ok none) ∧
    (IsValidInstrumentPair pair = true →
      GetOpenOrdersByInstrumentPair db pair ≠ [] →
      GetOrderBook db pair =
        .ok (some (buildOrderBook pair (GetOpenOrdersByInstrumentPair db pair)))) := by
  refine ⟨?_, rfl, ?_, ?_⟩
  · intro h
    simp [GetOrderBook, h]
  · intro hv he
    simp [GetOrderBook, hv, he]
  · intro hv hne
    have hlen : ¬ (GetOpenOrdersByInstrumentPair db pair).length = 0 := by
      simpa [List.length_eq_zero] using hne
    simp [GetOrderBook, hv, hlen]

/-- C6 witness: the amended clauses at concrete inputs: an invalid pair errors
with any stored orders, and a valid pair with no OPEN order yields `none`. -/
theorem getOrderBook_openOnly_witness :
    IsValidInstrumentPair "BTCBRL" = false ∧
    GetOrderBook [oPartial] "BTCBRL" = .error .invalidPairFormat ∧
    IsValidInstrumentPair "BTC_BRL" = true ∧
    GetOpenOrdersByInstrumentPair [oPartial] "BTC_BRL" = [] ∧
    GetOrderBook [oPartial] "BTC_BRL" = .ok none := by
  have h1 : IsValidInstrumentPair "BTCBRL" = false := by decide
  have h2 : IsValidInstrumentPair "BTC_BRL" = true := by decide
  have h3 : GetOpenOrdersByInstrumentPair [oPartial] "BTC_BRL" = [] := by
    simp [GetOpenOrdersByInstrumentPair, oPartial, OrderStatusOpen]
  exact ⟨h1, (getOrderBook_openOnly [oPartial] "BTCBRL").1 h1, h2, h3,
    (getOrderBook_openOnly [oPartial] "BTC_BRL").2.2.1 h2 h3⟩

/-- C9: order-book levels group orders by price value (the Go map key is the
canonical decimal string, which identifies prices that are equal as numbers,
so "100" and "100.00" share a level), each level's quantity is the sum of the
grouped orders' remaining quantities, bid levels are strictly descending and
ask levels strictly ascending in price; concretely, open BUY orders of 1.0 at
100 and 0.4 at 100.00 aggregate to the single bid level (100, 1.4). -/
theorem orderBook_levels (pair : String) (orders : List Order) :
    (buildOrderBook pair orders).bids.Pairwise (fun a b => b.price < a.price) ∧
    (buildOrderBook pair orders).asks.Pairwise (fun a b => a.price < b.price) ∧
    (∀ e : OrderBookEntry, e ∈ (buildOrderBook pair orders).bids ↔
      ((∃ o ∈ orders, o.orderType = OrderTypeBuy ∧ o.price = e.price) ∧
        e.quantity = ((orders.filter (fun o =>
          decide (o.price = e.price) && decide (o.orderType = OrderTypeBuy))).map
            Order.remainingQuantity).sum)) ∧
    (∀ e : OrderBookEntry, e ∈ (buildOrderBook pair orders).asks ↔
      ((∃ o ∈ orders, ¬ o.orderType = OrderTypeBuy ∧ o.price = e.price) ∧
        e.quantity = ((orders.filter (fun o =>
          decide (o.price = e.price) && decide (¬ o.orderType = OrderTypeBuy))).map
            Order.remainingQuantity).sum)) ∧
    buildOrderBook "BTC_BRL" [oBid1, oBid2] = ⟨"BTC_BRL", [⟨100, 7/5⟩], []⟩ := by
  refine ⟨sideLevels_sorted_desc _, sideLevels_sorted_asc _, ?_, ?_, ?_⟩
  · intro e
    rw [show (buildOrderBook pair orders).bids =
      sideLevels (orders.filter (fun o => decide (o.orderType = OrderTypeBuy))) true
      from rfl, mem_sideLevels]
    refine and_congr ?_ ?_
    · simp [List.mem_filter, and_comm, and_assoc]
    · rw [show sumRemaining
        (orders.filter (fun o => decide (o.orderType = OrderTypeBuy))) e.price =
        ((orders.filter (fun o =>
          decide (o.price = e.price) && decide (o.orderType = OrderTypeBuy))).map
            Order.remainingQuantity).sum from by
        simp only [sumRemaining, List.filter_filter]]
  · intro e
    rw [show (buildOrderBook pair orders).asks =
      sideLevels (orders.filter (fun o => decide (¬ o.orderType = OrderTypeBuy))) false
      from rfl, mem_sideLevels]
    refine and_congr ?_ ?_
    · simp [List.mem_filter, and_comm, and_assoc]
    · rw [show sumRemaining
        (orders.filter (fun o => decide (¬ o.orderType = OrderTypeBuy))) e.price =
        ((orders.filter (fun o =>
          decide (o.price = e.price) && decide (¬ o.orderType = OrderTypeBuy))).map
            Order.remainingQuantity).sum from by
        simp only [sumRemaining, List.filter_filter]]
  · have hsum : (1:ℚ) + 2/5 = 7/5 := by norm_num
    simp [buildOrderBook, sideLevels, sumRemaining, oBid1, oBid2, OrderTypeBuy,
      List.dedup_cons_of_mem, List.mergeSort_singleton, hsum]

/-- C9 witness: the level-membership clause instantiated at the concrete
aggregated level (100, 1.4) of the two-order book. -/
theorem orderBook_levels_witness :
    (⟨100, 7/5⟩ : OrderBookEntry) ∈ (buildOrderBook "BTC_BRL" [oBid1, oBid2]).bids ∧
    ((7:ℚ)/5) = (([oBid1, oBid2].filter (fun o =>
      decide (o.price = (100:ℚ)) && decide (o.orderType = OrderTypeBuy))).map
        Order.remainingQuantity).sum := by
  have hq : ((7:ℚ)/5) = (([oBid1, oBid2].filter (fun o =>
      decide (o.price = (100:ℚ)) && decide (o.orderType = OrderTypeBuy))).map
        Order.remainingQuantity).sum := by
    have hsum : (1:ℚ) + 2/5 = 7/5 := by norm_num
    simp [oBid1, oBid2, OrderTypeBuy, hsum]
  refine ⟨((orderBook_levels "BTC_BRL" [oBid1, oBid2]).2.2.1 ⟨100, 7/5⟩).mpr
    ⟨⟨oBid1, by simp, rfl, rfl⟩, hq⟩, hq⟩

/-- C1: for a taker with a BUY (resp. SELL) side, the matching query returns
exactly — as a permutation — the stored orders of the opposite side on the
same pair from a different account in status OPEN or PARTIALLY_FILLED whose
price is at most (resp. at least) the taker's limit price, and the returned
list is sorted by price ascending (resp. descending) with ties at equal price
in arrival (creation) order. -/
theorem getMatchingOrders_price_time (db : List Order) (taker : Order) :
    (taker.orderType = OrderTypeBuy →
      (getMatchingOrdersFor db taker).Perm
        (db.filter (fun o =>
          decide (o.instrumentPair = taker.instrumentPair) &&
          decide (o.orderType = OrderTypeSell) &&
          (decide (o.status = OrderStatusOpen) ||
            decide (o.status = OrderStatusPartiallyFilled)) &&
          decide (o.accountID ≠ taker.accountID) &&
          decide (o.price ≤ taker.price))) ∧
      (getMatchingOrdersFor db taker).Pairwise (fun a b =>
        a.price < b.price ∨ (a.price = b.price ∧ a.createdAt ≤ b.createdAt))) ∧
    (taker.orderType = OrderTypeSell →
      (getMatchingOrdersFor db taker).Perm
        (db.filter (fun o =>
          decide (o.instrumentPair = taker.instrumentPair) &&
          decide (o.orderType = OrderTypeBuy) &&
          (decide (o.status = OrderStatusOpen) ||
            decide (o.status = OrderStatusPartiallyFilled)) &&
          decide (o.accountID ≠ taker.accountID) &&
          decide (taker.price ≤ o.price))) ∧
      (getMatchingOrdersFor db taker).Pairwise (fun a b =>
        b.price < a.price ∨ (a.price = b.price ∧ a.createdAt ≤ b.createdAt))) := by
  constructor
  · intro hb
    have hop : oppositeOrderType taker.orderType = OrderTypeSell := by
      simp [oppositeOrderType, hb, OrderTypeBuy, OrderTypeSell]
    have hisbuy : (taker.orderType == OrderTypeBuy) = true := by
      simp [hb]
    constructor
    · unfold getMatchingOrdersFor GetMatchingOrders
      rw [hop, hisbuy]
      have hfeq : db.filter
          (matchingPred taker.accountID taker.instrumentPair OrderTypeSell
            taker.price true) =
          db.filter (fun o =>
            decide (o.instrumentPair = taker.instrumentPair) &&
            decide (o.orderType = OrderTypeSell) &&
            (decide (o.status = OrderStatusOpen) ||
              decide (o.status = OrderStatusPartiallyFilled)) &&
            decide (o.accountID ≠ taker.accountID) &&
            decide (o.price ≤ taker.price)) :=
        List.filter_congr (fun o _ => by simp [matchingPred])
      exact hfeq ▸ List.mergeSort_perm _ _
    · unfold getMatchingOrdersFor GetMatchingOrders
      rw [hop, hisbuy]
      exact (List.sorted_mergeSort (matchingLE_trans true) (matchingLE_total true)
        _).imp (fun h => (matchingLE_true_iff _ _).mp h)
  · intro hs
    have hop : oppositeOrderType taker.orderType = OrderTypeBuy := by
      simp [oppositeOrderType, hs, OrderTypeSell]
    have hisbuy : (taker.orderType == OrderTypeBuy) = false := by
      simp [hs, OrderTypeBuy, OrderTypeSell]
    constructor
    · unfold getMatchingOrdersFor GetMatchingOrders
      rw [hop, hisbuy]
      have hfeq : db.filter
          (matchingPred taker.accountID taker.instrumentPair OrderTypeBuy
            taker.price false) =
          db.filter (fun o =>
            decide (o.instrumentPair = taker.instrumentPair) &&
            decide (o.orderType = OrderTypeBuy) &&
            (decide (o.status = OrderStatusOpen) ||
              decide (o.status = OrderStatusPartiallyFilled)) &&
            decide (o.accountID ≠ taker.accountID) &&
            decide (taker.price ≤ o.price)) :=
        List.filter_congr (fun o _ => by simp [matchingPred])
      exact hfeq ▸ List.mergeSort_perm _ _
    · unfold getMatchingOrdersFor GetMatchingOrders
      rw [hop, hisbuy]
      exact (List.sorted_mergeSort (matchingLE_trans false) (matchingLE_total false)
        _).imp (fun h => (matchingLE_false_iff _ _).mp h)

/-- C1 witness: the BUY clause at the concrete taker `takerW` against the
one-maker book `[makerW]`. -/
theorem getMatchingOrders_price_time_witness :
    takerW.orderType = OrderTypeBuy ∧
    ((getMatchingOrdersFor [makerW] takerW).Perm
      ([makerW].filter (fun o =>
        decide (o.instrumentPair = takerW.instrumentPair) &&
        decide (o.orderType = OrderTypeSell) &&
        (decide (o.status = OrderStatusOpen) ||
          decide (o.status = OrderStatusPartiallyFilled)) &&
        decide (o.accountID ≠ takerW.accountID) &&
        decide (o.price ≤ takerW.price))) ∧
    (getMatchingOrdersFor [makerW] takerW).Pairwise (fun a b =>
      a.price < b.price ∨ (a.price = b.price ∧ a.createdAt ≤ b.createdAt))) :=
  ⟨rfl, (getMatchingOrders_price_time [makerW] takerW).1 rfl⟩

end MBC
